import Mathlib

/-!
Verification of the receipt line-builder and money-conversion module
(`src/utils/receipt.ts`, with the embedded `utils/money.ts` part).

The TypeScript source is shallowly embedded: JS numbers are modelled as
exact rationals (ℚ), JS strings as Lean `String` (working on `.data` so
that everything reduces in the kernel), nullable/optional values as
`Option`, and the tagged `ReceiptContentLine` records as an inductive
type.  Each Lean definition mirrors one source function.
-/

set_option maxRecDepth 8000

attribute [local semireducible] Rat.add Rat.mul Rat.sub Rat.inv Rat.ofScientific

namespace Receipt

/-! ## String primitives (kernel-computable models of the JS string methods) -/

/-- JS `String.prototype.trim()`: strip leading and trailing whitespace. -/
def strTrim (s : String) : String :=
  String.mk (((s.data.dropWhile Char.isWhitespace).reverse.dropWhile Char.isWhitespace).reverse)

/-- JS `String.prototype.toUpperCase()` (ASCII, enough for currency codes). -/
def strUpper (s : String) : String :=
  String.mk (s.data.map Char.toUpper)

/-- JS `" ".repeat(n)`. -/
def spaces (n : Nat) : String :=
  String.mk (List.replicate n ' ')

/-- Join a list of strings with single spaces (JS `arr.join(" ")`). -/
def joinSp : List String → String
  | [] => ""
  | [s] => s
  | s :: rest => s ++ " " ++ joinSp rest

/-- Helper for `splitWs`: scan the characters, collecting maximal runs of
non-whitespace characters (the accumulator holds the current run reversed). -/
def wordsAux : List Char → List Char → List String
  | [], acc => if acc = [] then [] else [String.mk acc.reverse]
  | c :: cs, acc =>
    if c.isWhitespace then
      if acc = [] then wordsAux cs [] else String.mk acc.reverse :: wordsAux cs []
    else wordsAux cs (c :: acc)

/-- JS `s.split(/\s+/)` on an already-trimmed string: the maximal runs of
non-whitespace characters, in order. -/
def splitWs (s : String) : List String :=
  wordsAux s.data []

/-! ## money.ts -/

/-- `CurrencyCode` from `utils/money.ts`. -/
inductive CurrencyCode
  | TRY
  | USD
  | EUR
  | GBP
deriving DecidableEq

/-- `Rates` from `utils/money.ts`: a rate table.  A JS record lookup
`rates?.[code]` may be `undefined`, hence `Option`. -/
abbrev Rates := CurrencyCode → Option ℚ

/-- `toTRY` from `utils/money.ts`: FX -> TRY.  `!amountFX` short-circuits to 0,
TRY passes through, and `r && r > 0 ? amountFX * r : 0` is the rate branch
(a missing, zero or negative rate yields exactly 0). -/
def toTRY (amountFX : ℚ) (code : CurrencyCode) (rates : Rates) : ℚ :=
  if amountFX = 0 then 0
  else if code = CurrencyCode.TRY then amountFX
  else
    match rates code with
    | some r => if 0 < r then amountFX * r else 0
    | none => 0

/-- `fromTRY` from `utils/money.ts`: TRY -> FX.  As `toTRY`, except that the
fallback branch `r && r > 0 ? amountTRY / r : amountTRY` returns the input
unchanged when the rate is missing or not positive. -/
def fromTRY (amountTRY : ℚ) (code : CurrencyCode) (rates : Rates) : ℚ :=
  if amountTRY = 0 then 0
  else if code = CurrencyCode.TRY then amountTRY
  else
    match rates code with
    | some r => if 0 < r then amountTRY / r else amountTRY
    | none => amountTRY

/-- The string form of a currency code (for `formatReceiptMoney`). -/
def ccStr : CurrencyCode → String
  | CurrencyCode.TRY => "TRY"
  | CurrencyCode.USD => "USD"
  | CurrencyCode.EUR => "EUR"
  | CurrencyCode.GBP => "GBP"

/-! ## receipt.ts: number formatting -/

/-- `hasMeaningfulAmount` from `receipt.ts` with its default epsilon 0.005
(= 1/200): `Math.abs(value) >= epsilon`.  All call sites in the source use
the default epsilon. -/
def hasMeaningfulAmount (value : ℚ) : Bool :=
  decide ((1/200 : ℚ) ≤ |value|)

/-- JS `x.toFixed(2)` for a nonnegative rational (round half up to two
decimals, then print with exactly two fraction digits).  `formatReceiptMoney`
only applies it to `Math.abs(value)`. -/
def toFixed2 (q : ℚ) : String :=
  let n : Nat := ((q * 100 + 1/2).floor).toNat
  Nat.repr (n / 100) ++ "." ++
    (if n % 100 < 10 then "0" ++ Nat.repr (n % 100) else Nat.repr (n % 100))

/-- `formatReceiptMoney` from `receipt.ts`: TRY displays as "TL", the absolute
value is rendered with two decimals, the (nonempty) display currency is
appended after a space, and a leading "-" marks negative values. -/
def formatReceiptMoney (value : ℚ) (currency : String) : String :=
  let normalizedCurrency := strUpper currency
  let displayCurrency := if normalizedCurrency = "TRY" then "TL" else normalizedCurrency
  let amount := toFixed2 |value|
  let formatted := amount ++ (if displayCurrency = "" then "" else " " ++ displayCurrency)
  if value < 0 then "-" ++ formatted else formatted

/-- `formatPercentage` from `receipt.ts`.  On rationals the value is always
finite, so the `null` branches for non-finite input are unreachable; the JS
`Number(Math.abs(value).toFixed(2))` round-trip leaves `n/100` with `n`
as below, printed by `Number.prototype.toString` (trailing zeros dropped),
or by `toFixed(0)` when whole. -/
def formatPercentage (value : ℚ) : Option String :=
  let n : Nat := ((|value| * 100 + 1/2).floor).toNat
  some
    (if n % 100 = 0 then Nat.repr (n / 100)
     else if n % 10 = 0 then Nat.repr (n / 100) ++ "." ++ Nat.repr (n % 100 / 10)
     else Nat.repr (n / 100) ++ "." ++
       (if n % 100 < 10 then "0" ++ Nat.repr (n % 100) else Nat.repr (n % 100)))

/-- JS template-literal rendering of an item quantity.  The source only ever
interpolates `item.quantity` this way; integral values print as plain
integers (the non-integral JS decimal rendering is represented as
num/den, which no claim depends on). -/
def qtyStr (q : ℚ) : String :=
  if q.den = 1 then
    (if q.num < 0 then "-" ++ Nat.repr q.num.natAbs else Nat.repr q.num.natAbs)
  else
    (if q.num < 0 then "-" else "") ++ Nat.repr q.num.natAbs ++ "/" ++ Nat.repr q.den

/-! ## receipt.ts: data model -/

/-- The font-size presets of `ReceiptContentLine`. -/
inductive Preset
  | normal
  | medium
  | large
deriving DecidableEq

/-- The alignment values used by the source ("left", "center"). -/
inductive Align
  | left
  | center
deriving DecidableEq

/-- `ReceiptContentLine`: the tagged output records of the builder. -/
inductive ReceiptContentLine
  | text (text : String) (preset : Option Preset) (align : Option Align)
  | columns (left right : String) (indent width : Int) (preset : Option Preset)
  | separator (length : Int) (sepChar : Option Char)
  | empty (count : Nat)
deriving DecidableEq

/-- `ReceiptMetaRow` from `receipt.ts`.  The source allows
`string | number | null` values; a number value is stringified by
`addMetaRow` before use, so the model carries the string form. -/
structure ReceiptMetaRow where
  label : String
  value : Option String
deriving DecidableEq

/-- `ReceiptItem` from `receipt.ts`. -/
structure ReceiptItem where
  name : String
  quantity : ℚ
  unitPrice : ℚ
  currency : String
  subtotal : Option ℚ
deriving DecidableEq

/-- `BuildReceiptLinesOptions` from `receipt.ts`.  `Option` marks the fields
the destructuring defaults or null-checks treat as absent; a JS `null` for a
truthiness-checked text field behaves exactly like `some ""`.  `paid` and
`remaining` keep the source's runtime null-guards (`paid ?? total`,
`remaining !== undefined && remaining !== null`). -/
structure BuildReceiptLinesOptions where
  tenantHeaderLines : List ReceiptContentLine := []
  title : Option String := none
  orderNumber : Option String := none
  createdAtText : Option String := none
  customerName : Option String := none
  sellerName : Option String := none
  extraMetaRows : List ReceiptMetaRow := []
  items : List ReceiptItem
  itemsEmptyMessage : Option String := none
  subtotal : ℚ
  totalDiscount : ℚ
  totalTax : ℚ
  total : ℚ
  paid : Option ℚ := none
  remaining : Option ℚ := none
  paymentLabel : Option String := none
  thankYouMessage : Option String := none
  receiptWidth : Int
  receiptIndent : Int
  currency : Option String := none
  changeAmount : Option ℚ := none
  targetCurrency : Option String := none
  rates : Option Rates := none
  paidCurrency : Option String := none
  summaryAlreadyTarget : Bool := false

/-! ## receipt.ts: currency normalization and conversion -/

/-- `normalizeCurrency` from `buildStandardReceiptLines`: uppercase and
validate against the four known codes, defaulting to TRY. -/
def normCur (value : String) : CurrencyCode :=
  let normalized := strUpper value
  if normalized = "TRY" then CurrencyCode.TRY
  else if normalized = "USD" then CurrencyCode.USD
  else if normalized = "EUR" then CurrencyCode.EUR
  else if normalized = "GBP" then CurrencyCode.GBP
  else CurrencyCode.TRY

/-- `resolvedTargetCurrency`: `normalizeCurrency(targetCurrency)` with the
destructuring default "TRY". -/
def resolvedTargetCurrency (o : BuildReceiptLinesOptions) : CurrencyCode :=
  normCur (o.targetCurrency.getD "TRY")

/-- `convertAmount` from `buildStandardReceiptLines`.  On rationals the
`Number.isFinite` guard is vacuous.  Same-currency, missing rate table or
zero amount pass through; otherwise the amount is pivoted through TRY. -/
def convertAmount (o : BuildReceiptLinesOptions) (value : ℚ) (fr : Option String) : ℚ :=
  let sourceCurrency := normCur (fr.getD (o.currency.getD "TRY"))
  match o.rates with
  | none => value
  | some rates =>
    if sourceCurrency = resolvedTargetCurrency o ∨ value = 0 then value
    else if resolvedTargetCurrency o = CurrencyCode.TRY then toTRY value sourceCurrency rates
    else if sourceCurrency = CurrencyCode.TRY then fromTRY value (resolvedTargetCurrency o) rates
    else fromTRY (toTRY value sourceCurrency rates) (resolvedTargetCurrency o) rates

/-- `convertSummaryAmount`: skip conversion when the caller asserts the
summary figures are already in the target currency. -/
def convertSummaryAmount (o : BuildReceiptLinesOptions) (value : ℚ) (fr : Option String) : ℚ :=
  if o.summaryAlreadyTarget then value else convertAmount o value fr

/-- `formatDisplayMoney`: format in the resolved target currency. -/
def formatDisplayMoney (o : BuildReceiptLinesOptions) (value : ℚ) : String :=
  formatReceiptMoney value (ccStr (resolvedTargetCurrency o))

/-! ## receipt.ts: layout primitives -/

/-- `toCenteredLine` from `buildStandardReceiptLines`: trim, slice to the
effective width `max(receiptWidth, 1)`, and pad with spaces split as evenly
as possible (the odd space goes right). -/
def toCenteredLine (receiptWidth : Int) (value : String) (preset : Option Preset) :
    ReceiptContentLine :=
  let width : Int := max receiptWidth 1
  let safeValue : String := strTrim value
  let text : String := String.mk (safeValue.data.take width.toNat)
  let padding : Nat := (width - (text.length : Int)).toNat
  let left : Nat := padding / 2
  let right : Nat := padding - left
  ReceiptContentLine.text (spaces left ++ text ++ spaces right) preset none

/-- `pushResponsiveColumns` from `buildStandardReceiptLines`, as the list of
lines it pushes: one two-column line when the trimmed content fits in
`max(receiptWidth - receiptIndent, 8)`, otherwise the stacked fallback
(text line for a nonempty left, column line with empty left for a nonempty
right). -/
def pushResponsiveColumns (receiptWidth receiptIndent : Int) (left right : String)
    (preset : Option Preset) : List ReceiptContentLine :=
  let safeLeft := strTrim left
  let safeRight := strTrim right
  let availableWidth : Int := max (receiptWidth - receiptIndent) 8
  let estimatedLength : Int := safeLeft.length + safeRight.length + 2
  if estimatedLength > availableWidth then
    (if safeLeft = "" then [] else [ReceiptContentLine.text safeLeft preset none]) ++
    (if safeRight = "" then []
     else [ReceiptContentLine.columns "" safeRight receiptIndent receiptWidth preset])
  else
    [ReceiptContentLine.columns safeLeft safeRight receiptIndent receiptWidth preset]

/-- `wrapTextToWidth` helper: the `words.forEach` accumulation loop together
with the final `if (current) result.push(current)`. -/
def wrapWords (width : Int) : List String → String → List String
  | [], current => if current = "" then [] else [current]
  | w :: ws, current =>
    if w = "" then wrapWords width ws current
    else if current = "" then wrapWords width ws w
    else if ((current ++ " " ++ w).length : Int) ≤ width then
      wrapWords width ws (current ++ " " ++ w)
    else current :: wrapWords width ws w

/-- `wrapTextToWidth` from `receipt.ts`: trim; empty input yields no lines; a
fitting input is returned whole; otherwise greedily pack the
whitespace-delimited words. -/
def wrapTextToWidth (value : String) (width : Int) : List String :=
  let safe := strTrim value
  if safe = "" then []
  else if (safe.length : Int) ≤ width then [safe]
  else wrapWords width (splitWs safe) ""

/-- `addMetaRow` from `buildStandardReceiptLines`, as the list of lines it
pushes: skip absent/empty values, wrap the value to the available width, pair
the first wrapped line with the label and the rest with an empty label. -/
def addMetaRowLines (receiptWidth receiptIndent : Int) (label : String)
    (value : Option String) (preset : Option Preset) : List ReceiptContentLine :=
  match value with
  | none => []
  | some v =>
    if v = "" then []
    else
      match wrapTextToWidth v (max (receiptWidth - receiptIndent) 8) with
      | [] => []
      | first :: rest =>
        pushResponsiveColumns receiptWidth receiptIndent label first preset ++
        rest.flatMap (fun line => pushResponsiveColumns receiptWidth receiptIndent "" line preset)

/-! ## receipt.ts: buildStandardReceiptLines, decomposed into its sequential
sections (the source pushes onto one `lines` array in exactly this order). -/

/-- Step 1: tenant header lines plus separator, when supplied. -/
def headerLines (o : BuildReceiptLinesOptions) : List ReceiptContentLine :=
  if o.tenantHeaderLines = [] then []
  else o.tenantHeaderLines ++ [ReceiptContentLine.separator o.receiptWidth none]

/-- Step 2: centered title plus separator, when the title is truthy (the
destructuring default is "Satış Fişi"). -/
def titleLines (o : BuildReceiptLinesOptions) : List ReceiptContentLine :=
  let title := o.title.getD "Satış Fişi"
  if title = "" then []
  else [toCenteredLine o.receiptWidth title (some Preset.medium),
        ReceiptContentLine.separator o.receiptWidth none]

/-- `sellerName || "Satıcı"`: the seller meta value falls back to the label
itself when the seller name is absent or empty. -/
def sellerRowValue (o : BuildReceiptLinesOptions) : String :=
  match o.sellerName with
  | some s => if s = "" then "Satıcı" else s
  | none => "Satıcı"

/-- One truthiness-guarded meta row (`if (x) metaRows.push(...)`). -/
def truthyRow (label : String) (v : Option String) : List ReceiptMetaRow :=
  match v with
  | some s => if s = "" then [] else [⟨label, some s⟩]
  | none => []

/-- The `metaRows` array: order number, date and customer when truthy, the
seller row always, then any caller-supplied extra rows. -/
def metaRows (o : BuildReceiptLinesOptions) : List ReceiptMetaRow :=
  truthyRow "Sipariş No" o.orderNumber ++
  truthyRow "Tarih" o.createdAtText ++
  truthyRow "Müşteri" o.customerName ++
  [⟨"Satıcı", some (sellerRowValue o)⟩] ++
  o.extraMetaRows

/-- Step 3: the order-info block, skipped when `metaRows` is empty. -/
def orderInfoLines (o : BuildReceiptLinesOptions) : List ReceiptContentLine :=
  if metaRows o = [] then []
  else
    [toCenteredLine o.receiptWidth "Sipariş Bilgileri" (some Preset.medium),
     ReceiptContentLine.separator o.receiptWidth (some '.')] ++
    (metaRows o).flatMap
      (fun row => addMetaRowLines o.receiptWidth o.receiptIndent row.label row.value none) ++
    [ReceiptContentLine.separator o.receiptWidth none]

/-- Step 4: the item list (or the centered empty-items message). -/
def itemLines (o : BuildReceiptLinesOptions) : List ReceiptContentLine :=
  if o.items = [] then
    [ReceiptContentLine.text (o.itemsEmptyMessage.getD "Ürün bulunamadı.") none
      (some Align.center)]
  else
    o.items.enum.flatMap (fun p =>
      let index := p.1
      let item := p.2
      let displayUnitPrice := convertAmount o item.unitPrice (some item.currency)
      let lineSubtotal := item.subtotal.getD (item.unitPrice * item.quantity)
      let displaySubtotal := convertAmount o lineSubtotal (some item.currency)
      (if index = 0 then [] else [ReceiptContentLine.empty 1]) ++
      [ReceiptContentLine.text (if item.name = "" then "Ürün" else item.name)
        (some Preset.medium) (some Align.left)] ++
      pushResponsiveColumns o.receiptWidth o.receiptIndent
        (qtyStr item.quantity ++ " x " ++ formatDisplayMoney o displayUnitPrice)
        (formatDisplayMoney o displaySubtotal) none)

/-- Step 5: separator, centered "Ödeme Özeti", separator. -/
def summaryHeaderLines (o : BuildReceiptLinesOptions) : List ReceiptContentLine :=
  [ReceiptContentLine.separator o.receiptWidth none,
   toCenteredLine o.receiptWidth "Ödeme Özeti" (some Preset.medium),
   ReceiptContentLine.separator o.receiptWidth none]

/-- Step 6: the subtotal row, only when meaningful. -/
def subtotalLines (o : BuildReceiptLinesOptions) : List ReceiptContentLine :=
  if hasMeaningfulAmount o.subtotal then
    pushResponsiveColumns o.receiptWidth o.receiptIndent "Ara Toplam"
      (formatDisplayMoney o (convertSummaryAmount o o.subtotal none)) (some Preset.medium)
  else []

/-- Step 7: the discount row, only when meaningful, with the computed
percentage label when the subtotal is meaningful. -/
def discountLines (o : BuildReceiptLinesOptions) : List ReceiptContentLine :=
  if hasMeaningfulAmount o.totalDiscount then
    let discountPercent :=
      if hasMeaningfulAmount o.subtotal then formatPercentage (o.totalDiscount / o.subtotal * 100)
      else none
    let discountLabel :=
      match discountPercent with
      | some p => "İndirim (%" ++ p ++ ")"
      | none => "İndirim"
    pushResponsiveColumns o.receiptWidth o.receiptIndent discountLabel
      ("-" ++ formatDisplayMoney o (convertSummaryAmount o o.totalDiscount none)) none
  else []

/-- Step 8: the tax row, only when meaningful, percentage against
`max(subtotal - totalDiscount, 0)`. -/
def taxLines (o : BuildReceiptLinesOptions) : List ReceiptContentLine :=
  if hasMeaningfulAmount o.totalTax then
    let taxBaseAmount := max (o.subtotal - o.totalDiscount) 0
    let taxPercent :=
      if hasMeaningfulAmount taxBaseAmount then formatPercentage (o.totalTax / taxBaseAmount * 100)
      else none
    let taxLabel :=
      match taxPercent with
      | some p => "KDV (%" ++ p ++ ")"
      | none => "KDV"
    pushResponsiveColumns o.receiptWidth o.receiptIndent taxLabel
      (formatDisplayMoney o (convertSummaryAmount o o.totalTax none)) none
  else []

/-- `paid ?? total`. -/
def paidRaw (o : BuildReceiptLinesOptions) : ℚ :=
  o.paid.getD o.total

/-- `totalDisplay = convertSummaryAmount(total)`. -/
def totalDisplay (o : BuildReceiptLinesOptions) : ℚ :=
  convertSummaryAmount o o.total none

/-- `resolvedPaid = convertSummaryAmount(paidRaw, paidCurrency)`. -/
def resolvedPaid (o : BuildReceiptLinesOptions) : ℚ :=
  convertSummaryAmount o (paidRaw o) o.paidCurrency

/-- `remainingRaw`: the supplied remaining amount clamped to 0 when present,
else `max(total - paidRaw, 0)`. -/
def remainingRaw (o : BuildReceiptLinesOptions) : ℚ :=
  match o.remaining with
  | some r => max r 0
  | none => max (o.total - paidRaw o) 0

/-- `resolvedRemaining = convertSummaryAmount(remainingRaw)`. -/
def resolvedRemaining (o : BuildReceiptLinesOptions) : ℚ :=
  convertSummaryAmount o (remainingRaw o) none

/-- `hasOutstandingDebt = hasMeaningfulAmount(resolvedRemaining)`. -/
def hasOutstandingDebt (o : BuildReceiptLinesOptions) : Bool :=
  hasMeaningfulAmount (resolvedRemaining o)

/-- `displayPaidAmount = hasOutstandingDebt ? totalDisplay : resolvedPaid`. -/
def displayPaidAmount (o : BuildReceiptLinesOptions) : ℚ :=
  if hasOutstandingDebt o then totalDisplay o else resolvedPaid o

/-- Step 9: the always-emitted paid ("Ödenen") row. -/
def paidLines (o : BuildReceiptLinesOptions) : List ReceiptContentLine :=
  pushResponsiveColumns o.receiptWidth o.receiptIndent "Ödenen"
    (formatDisplayMoney o (displayPaidAmount o)) none

/-- `resolvedChange`: the converted explicit change amount when supplied, else
`max(resolvedPaid - totalDisplay, 0)`. -/
def resolvedChange (o : BuildReceiptLinesOptions) : ℚ :=
  match o.changeAmount with
  | some c => convertSummaryAmount o c none
  | none => max (resolvedPaid o - totalDisplay o) 0

/-- Step 10: the change ("Para Üstü") row, only when meaningful. -/
def changeLines (o : BuildReceiptLinesOptions) : List ReceiptContentLine :=
  if hasMeaningfulAmount (resolvedChange o) then
    pushResponsiveColumns o.receiptWidth o.receiptIndent "Para Üstü"
      (formatDisplayMoney o (resolvedChange o)) none
  else []

/-- Step 11: dotted separator, centered "Genel Toplam", large total line. -/
def grandTotalLines (o : BuildReceiptLinesOptions) : List ReceiptContentLine :=
  [ReceiptContentLine.separator o.receiptWidth (some '.'),
   toCenteredLine o.receiptWidth "Genel Toplam" (some Preset.medium),
   ReceiptContentLine.text (formatDisplayMoney o (totalDisplay o)) (some Preset.large) none]

/-- Step 12: the debt ("Borç") row, guarded by
`!hasOutstandingDebt && hasMeaningfulAmount(resolvedRemaining)`. -/
def debtLines (o : BuildReceiptLinesOptions) : List ReceiptContentLine :=
  if !hasOutstandingDebt o && hasMeaningfulAmount (resolvedRemaining o) then
    pushResponsiveColumns o.receiptWidth o.receiptIndent "Borç"
      (formatDisplayMoney o (resolvedRemaining o)) none
  else []

/-- Step 13: blank line, optional centered thank-you message, 30 feed lines. -/
def footerLines (o : BuildReceiptLinesOptions) : List ReceiptContentLine :=
  let thankYou := o.thankYouMessage.getD "Teşekkür ederiz!"
  [ReceiptContentLine.empty 1] ++
  (if thankYou = "" then [] else [toCenteredLine o.receiptWidth thankYou none]) ++
  [ReceiptContentLine.empty 30]

/-- `buildStandardReceiptLines` from `receipt.ts`: the sections in source
order. -/
def buildStandardReceiptLines (o : BuildReceiptLinesOptions) : List ReceiptContentLine :=
  headerLines o ++ titleLines o ++ orderInfoLines o ++ itemLines o ++
  summaryHeaderLines o ++ subtotalLines o ++ discountLines o ++ taxLines o ++
  paidLines o ++ changeLines o ++ grandTotalLines o ++ debtLines o ++ footerLines o

/-! ## Concrete scenarios used by the claims -/

/-- The spec §8.9 outstanding-debt scenario: total=100, paid=40, remaining
computed (60). -/
def scenario89 : BuildReceiptLinesOptions :=
  { items := [], subtotal := 0, totalDiscount := 0, totalTax := 0,
    total := 100, paid := some 40, remaining := none,
    receiptWidth := 32, receiptIndent := 1 }

/-- An input with an explicitly supplied negative change amount. -/
def negChangeOpts : BuildReceiptLinesOptions :=
  { items := [], subtotal := 0, totalDiscount := 0, totalTax := 0,
    total := 10, paid := some 15, remaining := some 0, changeAmount := some (-5),
    receiptWidth := 32, receiptIndent := 1 }

/-- An empty rate table. -/
def ratesNone : Rates := fun _ => none

/-- A rate table with only USD set (rate 30). -/
def ratesUSD : Rates := fun c => if c = CurrencyCode.USD then some 30 else none

/-- Is this line a debt ("Borç") columns row? -/
def isDebtRow : ReceiptContentLine → Bool
  | ReceiptContentLine.columns l _ _ _ _ => l == "Borç"
  | _ => false

end Receipt

namespace Receipt

/-! ## Helper lemmas about the string primitives -/

theorem joinSp_cons_ne (a : String) (l : List String) (h : l ≠ []) :
    joinSp (a :: l) = a ++ " " ++ joinSp l := by
  cases l with
  | nil => exact absurd rfl h
  | cons b u => rfl

theorem joinSp_append_core (a : String) (t : List String) (b : String) (u : List String) :
    joinSp ((a :: t) ++ b :: u) = joinSp (a :: t) ++ " " ++ joinSp (b :: u) := by
  induction t generalizing a with
  | nil => simp [joinSp]
  | cons a2 t2 ih =>
    have h1 : joinSp ((a :: a2 :: t2) ++ b :: u) =
        a ++ " " ++ joinSp ((a2 :: t2) ++ b :: u) := rfl
    rw [h1, ih a2, joinSp_cons_ne a (a2 :: t2) (by simp)]
    simp [String.append_assoc]

theorem joinSp_append_ne (l1 l2 : List String) (h1 : l1 ≠ []) (h2 : l2 ≠ []) :
    joinSp (l1 ++ l2) = joinSp l1 ++ " " ++ joinSp l2 := by
  cases l1 with
  | nil => exact absurd rfl h1
  | cons a t =>
    cases l2 with
    | nil => exact absurd rfl h2
    | cons b u => exact joinSp_append_core a t b u

theorem joinSp_ne_empty (a : String) (l : List String) (ha : a ≠ "") :
    joinSp (a :: l) ≠ "" := by
  cases l with
  | nil => simpa [joinSp] using ha
  | cons b u =>
    intro hcontra
    have h2 : a ++ " " ++ joinSp (b :: u) = "" := hcontra
    have hd := congrArg String.data h2
    rw [String.data_append, String.data_append] at hd
    have hsp : (" " : String).data = [' '] := rfl
    rw [hsp] at hd
    simp at hd

theorem mk_reverse_ne_empty {acc : List Char} (h : acc ≠ []) :
    String.mk acc.reverse ≠ "" := by
  intro hc
  apply h
  have hd : acc.reverse = [] := by simpa using congrArg String.data hc
  simpa using hd

theorem wordsAux_ne_empty : ∀ (cs acc : List Char), ∀ s ∈ wordsAux cs acc, s ≠ "" := by
  intro cs
  induction cs with
  | nil =>
    intro acc s hs
    by_cases h : acc = []
    · simp [wordsAux, h] at hs
    · simp [wordsAux, h] at hs
      subst hs
      exact mk_reverse_ne_empty h
  | cons c cs ih =>
    intro acc s hs
    by_cases hw : c.isWhitespace
    · by_cases h : acc = []
      · rw [wordsAux] at hs
        simp [hw, h] at hs
        exact ih [] s hs
      · rw [wordsAux] at hs
        simp [hw, h] at hs
        rcases hs with hs | hs
        · subst hs; exact mk_reverse_ne_empty h
        · exact ih [] s hs
    · rw [wordsAux] at hs
      simp [hw] at hs
      exact ih (c :: acc) s hs

theorem splitWs_ne_empty (s : String) : ∀ x ∈ splitWs s, x ≠ "" := by
  intro x hx
  exact wordsAux_ne_empty s.data [] x hx

end Receipt

namespace Receipt

theorem joinSp_flatten (P : List (List String)) (h : ∀ b ∈ P, b ≠ []) :
    joinSp (P.map joinSp) = joinSp P.flatten := by
  induction P with
  | nil => rfl
  | cons b Q ih =>
    cases Q with
    | nil => simp [joinSp]
    | cons c R =>
      have hb : b ≠ [] := h b (by simp)
      have hc : c ≠ [] := h c (by simp)
      have hQ : ∀ x ∈ c :: R, x ≠ [] := fun x hx => h x (by simp [hx])
      have hjoin_ne : (c :: R).flatten ≠ [] := by
        rcases c with _ | ⟨y, ys⟩
        · exact absurd rfl hc
        · simp
      have hmap : ((b :: c :: R).map joinSp) = joinSp b :: (c :: R).map joinSp := rfl
      rw [hmap, joinSp_cons_ne _ _ (by simp), ih hQ,
        ← joinSp_append_ne b ((c :: R).flatten) hb hjoin_ne]
      rfl

theorem wrapWords_partition (width : Int) (ws : List String) :
    ∀ cb : List String, (∀ x ∈ cb, x ≠ "") → (∀ x ∈ ws, x ≠ "") →
    ∃ P : List (List String),
      wrapWords width ws (joinSp cb) = P.map joinSp ∧
      P.flatten = cb ++ ws ∧
      (∀ b ∈ P, b ≠ [] ∧ (∀ x ∈ b, x ≠ "")) := by
  induction ws with
  | nil =>
    intro cb hcb _
    cases cb with
    | nil =>
      exact ⟨[], by simp [wrapWords, joinSp], by simp, by simp⟩
    | cons a t =>
      have hne : joinSp (a :: t) ≠ "" := joinSp_ne_empty a t (hcb a (by simp))
      refine ⟨[a :: t], ?_, by simp, ?_⟩
      · simp [wrapWords, hne]
      · intro b hb
        simp at hb
        subst hb
        exact ⟨by simp, hcb⟩
  | cons w ws ih =>
    intro cb hcb hws
    have hw : w ≠ "" := hws w (by simp)
    have hws' : ∀ x ∈ ws, x ≠ "" := fun x hx => hws x (by simp [hx])
    cases cb with
    | nil =>
      have hstep : wrapWords width (w :: ws) (joinSp ([] : List String)) =
          wrapWords width ws w := by
        simp [wrapWords, joinSp, hw]
      obtain ⟨P, h1, h2, h3⟩ :=
        ih [w] (by intro x hx; simp at hx; subst hx; exact hw) hws'
      rw [show joinSp [w] = w from rfl] at h1
      exact ⟨P, by rw [hstep, h1], by simpa using h2, h3⟩
    | cons a t =>
      have hcur : joinSp (a :: t) ≠ "" := joinSp_ne_empty a t (hcb a (by simp))
      by_cases hfit : ((joinSp (a :: t) ++ " " ++ w).length : Int) ≤ width
      · have hsnoc : joinSp (a :: t) ++ " " ++ w = joinSp ((a :: t) ++ [w]) := by
          rw [joinSp_append_ne (a :: t) [w] (by simp) (by simp)]
          rfl
        have hstep : wrapWords width (w :: ws) (joinSp (a :: t)) =
            wrapWords width ws (joinSp ((a :: t) ++ [w])) := by
          rw [wrapWords]
          rw [if_neg hw, if_neg hcur, if_pos hfit, hsnoc]
        have hel : ∀ x ∈ (a :: t) ++ [w], x ≠ "" := by
          intro x hx
          rcases List.mem_append.mp hx with hx | hx
          · exact hcb x hx
          · simp at hx; subst hx; exact hw
        obtain ⟨P, h1, h2, h3⟩ := ih ((a :: t) ++ [w]) hel hws'
        refine ⟨P, by rw [hstep]; exact h1, ?_, h3⟩
        rw [h2]
        simp
      · obtain ⟨P, h1, h2, h3⟩ :=
          ih [w] (by intro x hx; simp at hx; subst hx; exact hw) hws'
        rw [show joinSp [w] = w from rfl] at h1
        have hstep : wrapWords width (w :: ws) (joinSp (a :: t)) =
            joinSp (a :: t) :: wrapWords width ws w := by
          rw [wrapWords]
          simp only [if_neg hw, if_neg hcur, if_neg hfit]
        refine ⟨(a :: t) :: P, ?_, ?_, ?_⟩
        · rw [hstep, h1]; rfl
        · simp [h2]
        · intro b hb
          rcases List.mem_cons.mp hb with hb | hb
          · subst hb; exact ⟨by simp, hcb⟩
          · exact h3 b hb

end Receipt

namespace Receipt

theorem pushRC_ne_nil (w i : Int) (l r : String) (p : Option Preset)
    (h : strTrim l ≠ "") : pushResponsiveColumns w i l r p ≠ [] := by
  unfold pushResponsiveColumns
  dsimp only
  split
  · simp [h]
  · simp

/-- Claim C3: for every nonzero amount and every code other than TRY, a
missing or non-positive rate makes `toTRY` return exactly 0 while `fromTRY`
returns its input unchanged. -/
theorem c3_missing_rate_asymmetry (a : ℚ) (c : CurrencyCode) (rates : Rates)
    (ha : a ≠ 0) (hc : c ≠ CurrencyCode.TRY)
    (hr : ∀ r : ℚ, rates c = some r → r ≤ 0) :
    toTRY a c rates = 0 ∧ fromTRY a c rates = a := by
  unfold toTRY fromTRY
  rcases hcase : rates c with _ | r
  · simp [ha, hc, hcase]
  · have hle : r ≤ 0 := hr r hcase
    have hnlt : ¬(0 < r) := not_lt.mpr hle
    simp [ha, hc, hcase, hnlt]

theorem c3_missing_rate_asymmetry_witness :
    toTRY 7 CurrencyCode.USD ratesNone = 0 ∧ fromTRY 7 CurrencyCode.USD ratesNone = 7 :=
  c3_missing_rate_asymmetry 7 CurrencyCode.USD ratesNone (by norm_num) (by decide)
    (fun r h => by simp [ratesNone] at h)

/-- Claim C4: round-trip conversion; for code ≠ TRY, rate r > 0 and amount
a ≠ 0, `fromTRY (toTRY a c rates) c rates = a` exactly (over ℚ). -/
theorem c4_roundtrip (a r : ℚ) (c : CurrencyCode) (rates : Rates)
    (hc : c ≠ CurrencyCode.TRY) (hr : 0 < r) (ha : a ≠ 0) (hrc : rates c = some r) :
    fromTRY (toTRY a c rates) c rates = a := by
  have h1 : toTRY a c rates = a * r := by
    unfold toTRY
    simp [ha, hc, hrc, hr]
  have h2 : a * r ≠ 0 := mul_ne_zero ha (ne_of_gt hr)
  rw [h1]
  unfold fromTRY
  simp [h2, hc, hrc, hr]
  exact mul_div_cancel_right₀ a (ne_of_gt hr)

theorem c4_roundtrip_witness :
    fromTRY (toTRY 5 CurrencyCode.USD ratesUSD) CurrencyCode.USD ratesUSD = 5 :=
  c4_roundtrip 5 30 CurrencyCode.USD ratesUSD (by decide) (by norm_num) (by norm_num) rfl

/-- Claim C5 (amended): when the trimmed left and right fit
(left + right + 2 ≤ max(width − indent, 8)), exactly one columns line with
both fields is emitted; otherwise a text line for a nonempty left followed by
an empty-left columns line for a nonempty right (and no columns line at all
when the right text is empty). -/
theorem c5_responsive_columns (w i : Int) (l r : String) (p : Option Preset) :
    (((strTrim l).length + (strTrim r).length + 2 : Int) ≤ max (w - i) 8 →
      pushResponsiveColumns w i l r p =
        [ReceiptContentLine.columns (strTrim l) (strTrim r) i w p]) ∧
    (((strTrim l).length + (strTrim r).length + 2 : Int) > max (w - i) 8 →
      pushResponsiveColumns w i l r p =
        (if strTrim l = "" then [] else [ReceiptContentLine.text (strTrim l) p none]) ++
        (if strTrim r = "" then []
         else [ReceiptContentLine.columns "" (strTrim r) i w p])) := by
  constructor
  · intro h
    unfold pushResponsiveColumns
    rw [if_neg (not_lt.mpr h)]
  · intro h
    unfold pushResponsiveColumns
    rw [if_pos h]

theorem c5_responsive_columns_witness :
    pushResponsiveColumns 32 1 "Ara Toplam" "50.00 TL" none =
      [ReceiptContentLine.columns "Ara Toplam" "50.00 TL" 1 32 none] :=
  (c5_responsive_columns 32 1 "Ara Toplam" "50.00 TL" none).1 (by decide)

/-- Claim C5 counterexample: in the overflow case with an empty right text the
source emits no columns line at all (only the left text line), contrary to
the claim's unconditional "followed by a columns-type line". -/
theorem c5_counterexample :
    (((strTrim "abcdefghi").length + (strTrim "").length + 2 : Int) > max ((10 : Int) - 0) 8) ∧
    pushResponsiveColumns 10 0 "abcdefghi" "" none =
      [ReceiptContentLine.text "abcdefghi" none none] ∧
    (pushResponsiveColumns 10 0 "abcdefghi" "" none).all
      (fun ln => match ln with
        | ReceiptContentLine.columns _ _ _ _ _ => false
        | _ => true) = true := by
  refine ⟨by decide, by decide, by decide⟩

/-- Claim C8: for trimmed text strictly shorter than the effective width
`max(receiptWidth, 1)`, the centered line splits its padding so that
left + right = width − textLength and right − left ∈ {0, 1}. -/
theorem c8_centering (receiptWidth : Int) (value : String) (p : Option Preset)
    (h : ((strTrim value).length : Int) < max receiptWidth 1) :
    ∃ l r : Nat,
      toCenteredLine receiptWidth value p =
        ReceiptContentLine.text (spaces l ++ strTrim value ++ spaces r) p none ∧
      ((l : Int) + r = max receiptWidth 1 - (strTrim value).length) ∧
      ((r : Int) - l = 0 ∨ (r : Int) - l = 1) := by
  have hdata : (strTrim value).data.length = (strTrim value).length := rfl
  have htake : (strTrim value).data.take (max receiptWidth 1).toNat = (strTrim value).data := by
    apply List.take_of_length_le
    omega
  refine ⟨((max receiptWidth 1 - (strTrim value).length).toNat) / 2,
          (max receiptWidth 1 - (strTrim value).length).toNat -
            (max receiptWidth 1 - (strTrim value).length).toNat / 2, ?_, ?_, ?_⟩
  · unfold toCenteredLine
    simp only [htake]
  · omega
  · omega

theorem c8_centering_witness :
    ∃ l r : Nat,
      toCenteredLine 10 " abc " none =
        ReceiptContentLine.text (spaces l ++ strTrim " abc " ++ spaces r) none none ∧
      ((l : Int) + r = max 10 1 - (strTrim " abc ").length) ∧
      ((r : Int) - l = 0 ∨ (r : Int) - l = 1) :=
  c8_centering 10 " abc " none (by decide)

end Receipt

namespace Receipt

/-- Claim C7 (amended): `wrapTextToWidth` never splits a word.  When the
trimmed input is longer than the width, the output lines are the
single-space joins of a partition of the input's word list into nonempty
consecutive blocks, so rejoining them with single spaces reproduces the
whitespace-normalized input.  When the trimmed input fits within the width,
it is returned verbatim as a single line (internal whitespace runs
preserved); empty trimmed input yields no lines; and a single word longer
than the width is returned verbatim as its own line. -/
theorem c7_wrap_words (value : String) (width : Int) :
    (strTrim value = "" → wrapTextToWidth value width = []) ∧
    (strTrim value ≠ "" → ((strTrim value).length : Int) ≤ width →
      wrapTextToWidth value width = [strTrim value]) ∧
    (((strTrim value).length : Int) > width →
      ∃ P : List (List String),
        wrapTextToWidth value width = P.map joinSp ∧
        P.flatten = splitWs (strTrim value) ∧
        (∀ b ∈ P, b ≠ []) ∧
        joinSp (wrapTextToWidth value width) = joinSp (splitWs (strTrim value))) ∧
    (splitWs (strTrim value) = [strTrim value] → ((strTrim value).length : Int) > width →
      wrapTextToWidth value width = [strTrim value]) := by
  refine ⟨?_, ?_, ?_, ?_⟩
  · intro h
    simp [wrapTextToWidth, h]
  · intro h1 h2
    simp [wrapTextToWidth, h1, h2]
  · intro hgt
    by_cases hemp : strTrim value = ""
    · have hw : wrapTextToWidth value width = [] := by simp [wrapTextToWidth, hemp]
      have hs : splitWs (strTrim value) = [] := by rw [hemp]; rfl
      exact ⟨[], by simp [hw], by simp [hs], by simp, by simp [hw, hs]⟩
    · have hlen : ¬ ((strTrim value).length : Int) ≤ width := not_le.mpr hgt
      have hwrap : wrapTextToWidth value width =
          wrapWords width (splitWs (strTrim value)) "" := by
        simp [wrapTextToWidth, hemp, hlen]
      have hsw : ∀ x ∈ splitWs (strTrim value), x ≠ "" := splitWs_ne_empty _
      obtain ⟨P, h1, h2, h3⟩ :=
        wrapWords_partition width (splitWs (strTrim value)) [] (by simp) hsw
      rw [show joinSp ([] : List String) = "" from rfl] at h1
      refine ⟨P, by rw [hwrap]; exact h1, by simpa using h2,
        fun b hb => (h3 b hb).1, ?_⟩
      rw [hwrap, h1, joinSp_flatten P (fun b hb => (h3 b hb).1), h2]
      simp
  · intro hsp hgt
    by_cases hemp : strTrim value = ""
    · rw [hemp] at hsp
      have hnil : splitWs ("" : String) = [] := rfl
      rw [hnil] at hsp
      exact absurd hsp (by simp)
    · have hlen : ¬ ((strTrim value).length : Int) ≤ width := not_le.mpr hgt
      have hwrap : wrapTextToWidth value width =
          wrapWords width (splitWs (strTrim value)) "" := by
        simp [wrapTextToWidth, hemp, hlen]
      rw [hwrap, hsp]
      simp [wrapWords, hemp]

theorem c7_wrap_words_witness :
    joinSp (wrapTextToWidth "aa bb cc" 4) = joinSp (splitWs (strTrim "aa bb cc")) := by
  obtain ⟨-, -, -, -, h⟩ := (c7_wrap_words "aa bb cc" 4).2.2.1 (by decide)
  exact h

/-- Claim C7 counterexample: for the fitting input "a  b" (internal double
space) and width 10, the source returns the trimmed input verbatim, so
rejoining the returned lines with single spaces does NOT reproduce the
whitespace-normalized input. -/
theorem c7_counterexample :
    wrapTextToWidth "a  b" 10 = ["a  b"] ∧
    joinSp (wrapTextToWidth "a  b" 10) ≠ joinSp (splitWs (strTrim "a  b")) := by
  refine ⟨by decide, by decide⟩

end Receipt

namespace Receipt

/-- Claim C1: the outstanding-debt ("Borç") row is emitted iff
`hasOutstandingDebt` is false while a meaningful resolved remaining amount
exists — a self-contradictory condition, so the row is never emitted; in
particular the §8.9 scenario (total=100, paid=40, remaining 60) contains no
debt row. -/
theorem c1_debt_row :
    (∀ o : BuildReceiptLinesOptions,
      debtLines o = [] ∧
      (debtLines o ≠ [] ↔
        hasOutstandingDebt o = false ∧
        hasMeaningfulAmount (resolvedRemaining o) = true)) ∧
    (buildStandardReceiptLines scenario89).all (fun ln => !(isDebtRow ln)) = true := by
  refine ⟨fun o => ?_, by decide⟩
  have hd : debtLines o = [] := by
    unfold debtLines hasOutstandingDebt
    cases hM : hasMeaningfulAmount (resolvedRemaining o) <;> simp [hM]
  refine ⟨hd, fun hne => absurd hd hne, ?_⟩
  rintro ⟨h1, h2⟩
  unfold hasOutstandingDebt at h1
  rw [h1] at h2
  exact Bool.noConfusion h2

/-- Claim C2: a paid ("Ödenen") row is always emitted; its amount is the
converted total when the resolved remaining amount is meaningful, else the
resolved paid amount.  In the §8.9 scenario the paid row shows "100.00 TL". -/
theorem c2_paid_row :
    (∀ o : BuildReceiptLinesOptions,
      paidLines o ≠ [] ∧
      paidLines o = pushResponsiveColumns o.receiptWidth o.receiptIndent "Ödenen"
        (formatReceiptMoney
          (if hasMeaningfulAmount (resolvedRemaining o) then totalDisplay o
           else resolvedPaid o)
          (ccStr (resolvedTargetCurrency o))) none ∧
      ∃ l1 l2, buildStandardReceiptLines o = l1 ++ paidLines o ++ l2) ∧
    ReceiptContentLine.columns "Ödenen" "100.00 TL" 1 32 none ∈
      buildStandardReceiptLines scenario89 := by
  refine ⟨fun o => ⟨?_, rfl, ?_⟩, by decide⟩
  · unfold paidLines
    exact pushRC_ne_nil _ _ _ _ _ (by decide)
  · exact ⟨headerLines o ++ titleLines o ++ orderInfoLines o ++ itemLines o ++
      summaryHeaderLines o ++ subtotalLines o ++ discountLines o ++ taxLines o,
      changeLines o ++ grandTotalLines o ++ debtLines o ++ footerLines o,
      by simp [buildStandardReceiptLines, List.append_assoc]⟩

/-- Claim C6 (amended): a supplied remaining amount and the computed change
fallback `max(resolvedPaid − totalDisplay, 0)` are clamped to 0, and the
change row is emitted exactly when the resolved change is meaningful; but an
explicitly supplied change amount is used (converted) without clamping, so a
negative explicit change amount is displayed as negative. -/
theorem c6_change_row (o : BuildReceiptLinesOptions) :
    0 ≤ remainingRaw o ∧
    (o.changeAmount = none → 0 ≤ resolvedChange o) ∧
    (∀ c : ℚ, o.changeAmount = some c →
      resolvedChange o = convertSummaryAmount o c none) ∧
    (changeLines o ≠ [] ↔ hasMeaningfulAmount (resolvedChange o) = true) ∧
    ∃ l1 l2, buildStandardReceiptLines o = l1 ++ changeLines o ++ l2 := by
  refine ⟨?_, ?_, ?_, ?_, ?_⟩
  · unfold remainingRaw
    cases h : o.remaining
    · simp
    · simp
  · intro h
    unfold resolvedChange
    rw [h]
    exact le_max_right _ _
  · intro c h
    unfold resolvedChange
    rw [h]
  · cases hm : hasMeaningfulAmount (resolvedChange o)
    · simp [changeLines, hm]
    · simp [changeLines, hm]
      exact pushRC_ne_nil _ _ _ _ _ (by decide)
  · exact ⟨headerLines o ++ titleLines o ++ orderInfoLines o ++ itemLines o ++
      summaryHeaderLines o ++ subtotalLines o ++ discountLines o ++ taxLines o ++
      paidLines o,
      grandTotalLines o ++ debtLines o ++ footerLines o,
      by simp [buildStandardReceiptLines, List.append_assoc]⟩

theorem c6_change_row_witness : 0 ≤ resolvedChange scenario89 :=
  (c6_change_row scenario89).2.1 rfl

/-- Claim C6 counterexample: with an explicitly supplied change amount of −5
the resolved change stays negative and the change row displays "-5.00 TL",
so negative change amounts are neither clamped to 0 nor kept from being
displayed as negative. -/
theorem c6_counterexample :
    resolvedChange negChangeOpts < 0 ∧
    ReceiptContentLine.columns "Para Üstü" "-5.00 TL" 1 32 none ∈
      buildStandardReceiptLines negChangeOpts :=
  ⟨by decide, by decide⟩

/-- Claim C9: the seller ("Satıcı") meta row is always present (falling back
to the label itself when the seller name is blank), so the meta-row list is
never empty and the order-info block appears in every output. -/
theorem c9_order_info_block (o : BuildReceiptLinesOptions) :
    metaRows o ≠ [] ∧
    (⟨"Satıcı", some (sellerRowValue o)⟩ : ReceiptMetaRow) ∈ metaRows o ∧
    ((o.sellerName = none ∨ o.sellerName = some "") → sellerRowValue o = "Satıcı") ∧
    orderInfoLines o ≠ [] ∧
    ∃ l1 l2, buildStandardReceiptLines o = l1 ++ orderInfoLines o ++ l2 := by
  have hmem : (⟨"Satıcı", some (sellerRowValue o)⟩ : ReceiptMetaRow) ∈ metaRows o := by
    unfold metaRows
    simp
  have hne : metaRows o ≠ [] := by
    intro h
    rw [h] at hmem
    exact List.not_mem_nil _ hmem
  refine ⟨hne, hmem, ?_, ?_, ?_⟩
  · rintro (h | h) <;> simp [sellerRowValue, h]
  · unfold orderInfoLines
    rw [if_neg hne]
    simp
  · exact ⟨headerLines o ++ titleLines o,
      itemLines o ++ summaryHeaderLines o ++ subtotalLines o ++ discountLines o ++
        taxLines o ++ paidLines o ++ changeLines o ++ grandTotalLines o ++
        debtLines o ++ footerLines o,
      by simp [buildStandardReceiptLines, List.append_assoc]⟩

theorem c9_order_info_block_witness : metaRows scenario89 ≠ [] :=
  (c9_order_info_block scenario89).1

/-- Claim C10: `paymentLabel` has no effect — two option records that agree
on every other field produce identical line sequences. -/
theorem c10_payment_label_noninterference (o1 o2 : BuildReceiptLinesOptions)
    (h : { o1 with paymentLabel := none } = { o2 with paymentLabel := none }) :
    buildStandardReceiptLines o1 = buildStandardReceiptLines o2 := by
  have e1 : buildStandardReceiptLines o1 =
      buildStandardReceiptLines { o1 with paymentLabel := none } := rfl
  have e2 : buildStandardReceiptLines o2 =
      buildStandardReceiptLines { o2 with paymentLabel := none } := rfl
  rw [e1, e2, h]

theorem c10_payment_label_noninterference_witness :
    buildStandardReceiptLines scenario89 =
      buildStandardReceiptLines { scenario89 with paymentLabel := some "Nakit" } :=
  c10_payment_label_noninterference _ _ rfl

end Receipt
